import Mathlib

/-!
Verification model of GeminiForge's staged workflow engine:
the retry/backoff remote-call wrapper (`api_manager.py`), the multi-strategy
JSON recovery layer, the project context record (`context.py`), and the
resumable five-stage workflow (`workflow.py`).  All strings are modelled as
`List Char`; machine text operations mirror the Python string methods used
by the source.
-/

/-- JSON values, the shape of every record exchanged with the remote
producer.  Object fields keep insertion order, mirroring Python dicts. -/
inductive Json where
  | null : Json
  | bool : Bool → Json
  | num : Int → Json
  | str : String → Json
  | arr : List Json → Json
  | obj : List (String × Json) → Json

mutual

/-- Decidable equality for `Json` (the nested inductive prevents deriving). -/
def Json.decEq : (a b : Json) → Decidable (a = b)
  | .null, .null => isTrue rfl
  | .bool a, .bool b =>
      if h : a = b then isTrue (by rw [h]) else
        isFalse (fun hh => by cases hh; exact h rfl)
  | .num a, .num b =>
      if h : a = b then isTrue (by rw [h]) else
        isFalse (fun hh => by cases hh; exact h rfl)
  | .str a, .str b =>
      if h : a = b then isTrue (by rw [h]) else
        isFalse (fun hh => by cases hh; exact h rfl)
  | .arr a, .arr b =>
      match Json.decEqList a b with
      | isTrue h => isTrue (by rw [h])
      | isFalse h => isFalse (fun hh => by cases hh; exact h rfl)
  | .obj a, .obj b =>
      match Json.decEqFields a b with
      | isTrue h => isTrue (by rw [h])
      | isFalse h => isFalse (fun hh => by cases hh; exact h rfl)
  | .null, .bool _ => isFalse (by intro h; cases h)
  | .null, .num _ => isFalse (by intro h; cases h)
  | .null, .str _ => isFalse (by intro h; cases h)
  | .null, .arr _ => isFalse (by intro h; cases h)
  | .null, .obj _ => isFalse (by intro h; cases h)
  | .bool _, .null => isFalse (by intro h; cases h)
  | .bool _, .num _ => isFalse (by intro h; cases h)
  | .bool _, .str _ => isFalse (by intro h; cases h)
  | .bool _, .arr _ => isFalse (by intro h; cases h)
  | .bool _, .obj _ => isFalse (by intro h; cases h)
  | .num _, .null => isFalse (by intro h; cases h)
  | .num _, .bool _ => isFalse (by intro h; cases h)
  | .num _, .str _ => isFalse (by intro h; cases h)
  | .num _, .arr _ => isFalse (by intro h; cases h)
  | .num _, .obj _ => isFalse (by intro h; cases h)
  | .str _, .null => isFalse (by intro h; cases h)
  | .str _, .bool _ => isFalse (by intro h; cases h)
  | .str _, .num _ => isFalse (by intro h; cases h)
  | .str _, .arr _ => isFalse (by intro h; cases h)
  | .str _, .obj _ => isFalse (by intro h; cases h)
  | .arr _, .null => isFalse (by intro h; cases h)
  | .arr _, .bool _ => isFalse (by intro h; cases h)
  | .arr _, .num _ => isFalse (by intro h; cases h)
  | .arr _, .str _ => isFalse (by intro h; cases h)
  | .arr _, .obj _ => isFalse (by intro h; cases h)
  | .obj _, .null => isFalse (by intro h; cases h)
  | .obj _, .bool _ => isFalse (by intro h; cases h)
  | .obj _, .num _ => isFalse (by intro h; cases h)
  | .obj _, .str _ => isFalse (by intro h; cases h)
  | .obj _, .arr _ => isFalse (by intro h; cases h)

/-- Decidable equality of `Json` lists. -/
def Json.decEqList : (a b : List Json) → Decidable (a = b)
  | [], [] => isTrue rfl
  | [], _ :: _ => isFalse (by intro h; cases h)
  | _ :: _, [] => isFalse (by intro h; cases h)
  | x :: xs, y :: ys =>
      match Json.decEq x y, Json.decEqList xs ys with
      | isTrue h1, isTrue h2 => isTrue (by rw [h1, h2])
      | isFalse h1, _ => isFalse (fun hh => by cases hh; exact h1 rfl)
      | _, isFalse h2 => isFalse (fun hh => by cases hh; exact h2 rfl)

/-- Decidable equality of `Json` field lists. -/
def Json.decEqFields : (a b : List (String × Json)) → Decidable (a = b)
  | [], [] => isTrue rfl
  | [], _ :: _ => isFalse (by intro h; cases h)
  | _ :: _, [] => isFalse (by intro h; cases h)
  | (k1, v1) :: xs, (k2, v2) :: ys =>
      if hk : k1 = k2 then
        match Json.decEq v1 v2, Json.decEqFields xs ys with
        | isTrue h1, isTrue h2 => isTrue (by rw [hk, h1, h2])
        | isFalse h1, _ => isFalse (fun hh => by cases hh; exact h1 rfl)
        | _, isFalse h2 => isFalse (fun hh => by cases hh; exact h2 rfl)
      else isFalse (fun hh => by cases hh; exact hk rfl)

end

instance : DecidableEq Json := Json.decEq

/-- Python truthiness of a JSON value (`if result:`): `None`, `False`, `0`,
empty string, empty list and empty dict are falsy. -/
def jsonTruthy : Json → Bool
  | Json.null => false
  | Json.bool b => b
  | Json.num n => n != 0
  | Json.str s => s ≠ ""
  | Json.arr xs => !xs.isEmpty
  | Json.obj fs => !fs.isEmpty

/-- `d.get(k)` on a Python dict modelled as an ordered association list:
the value at the first matching key, if any. -/
def dictGet (fs : List (String × Json)) (k : String) : Option Json :=
  match fs with
  | [] => none
  | (k2, v) :: rest => if k2 = k then some v else dictGet rest k

/-- `d[k] = v` on a Python dict: replace in place when the key exists
(keeping its position), otherwise append. -/
def dictSet (fs : List (String × Json)) (k : String) (v : Json) :
    List (String × Json) :=
  if (fs.map Prod.fst).contains k then
    fs.map (fun p => if p.1 = k then (k, v) else p)
  else
    fs ++ [(k, v)]

/-! ## Python string primitives

Raw text is modelled as `List Char`.  The helpers below mirror the exact
Python `str` methods the source calls: `strip`, `split`, `in`,
`startswith`, `endswith`, `count`. -/

/-- Characters Python's `str.strip()` (and the `\s` regex class) treat as
whitespace, restricted to ASCII. -/
def isWsChar (c : Char) : Bool :=
  c = ' ' || c = '\t' || c = '\n' || c = '\r' || c = '\x0b' || c = '\x0c'

/-- `text.strip()`: drop leading and trailing whitespace. -/
def pyStrip (s : List Char) : List Char :=
  ((s.dropWhile isWsChar).reverse.dropWhile isWsChar).reverse

/-- `needle.isPrefixOf hay` written out so proofs can unfold it. -/
def hasPrefix : List Char → List Char → Bool
  | [], _ => true
  | _ :: _, [] => false
  | a :: as2, b :: bs => a = b && hasPrefix as2 bs

/-- Split at the first occurrence of `sep`: `some (before, after)` when
`sep` occurs, `none` otherwise. -/
def splitFirst (sep : List Char) : List Char → Option (List Char × List Char)
  | [] => if hasPrefix sep [] then some ([], []) else none
  | c :: ys =>
      if hasPrefix sep (c :: ys) then some ([], (c :: ys).drop sep.length)
      else (splitFirst sep ys).map (fun p => (c :: p.1, p.2))

/-- `sep in text` for a nonempty separator. -/
def containsSub (sep text : List Char) : Bool :=
  (splitFirst sep text).isSome

/-- Iterated `splitFirst`, with a fuel bound so the recursion is
structural (one unit of fuel per separator occurrence suffices, since a
nonempty separator consumes at least one character). -/
def pySplitGo (sep : List Char) : Nat → List Char → List (List Char)
  | 0, xs => [xs]
  | fuel + 1, xs =>
      match splitFirst sep xs with
      | none => [xs]
      | some (a, b) => a :: pySplitGo sep fuel b

/-- `text.split(sep)` for a nonempty `sep` (Python raises on an empty
separator; all separators in the source are literals). -/
def pySplit (sep : List Char) (xs : List Char) : List (List Char) :=
  if sep = [] then [xs] else pySplitGo sep (xs.length + 1) xs

/-- `text.split(sep)[i]` (Python would raise when out of range; every use
in the source is guarded by an `in` check). -/
def pyIndex (l : List (List Char)) (i : Nat) : List Char := l.getD i []

/-- `text.startswith(p)`. -/
def pyStartsWith (p s : List Char) : Bool := hasPrefix p s

/-- `text.endswith(p)`. -/
def pyEndsWith (p s : List Char) : Bool := hasPrefix p.reverse s.reverse

/-- `text.count(c)` for a single-character needle. -/
def countChar (c : Char) (s : List Char) : Nat := s.count c

/-! ## Model of `json.loads`

The source delegates structured-text parsing to Python's standard
`json.loads` (an external collaborator, not part of this repository).
Modelled from the spec: "interpret the ... text as a structured record";
the model follows the JSON grammar as `json.loads` implements it in its
default strict mode (no trailing commas, raw control characters rejected
inside strings), restricted to integer numerals — a numeral with a
fraction or exponent, and a `\u` surrogate pair, are outside the model
(no input considered here contains either). -/

/-- Whitespace the JSON grammar allows between tokens. -/
def jsonWs (c : Char) : Bool :=
  c = ' ' || c = '\t' || c = '\n' || c = '\r'

/-- Drop inter-token whitespace. -/
def skipJsonWs (s : List Char) : List Char := s.dropWhile jsonWs

/-- Decimal digit test. -/
def isDigitChar (c : Char) : Bool := '0' ≤ c && c ≤ '9'

/-- Numeric value of a digit run. -/
def digitsToNat (ds : List Char) : Nat :=
  ds.foldl (fun a c => a * 10 + (c.toNat - 48)) 0

/-- Parse one string body after the opening quote, returning the decoded
characters and the rest after the closing quote. -/
def parseStrBody : List Char → Option (List Char × List Char)
  | [] => none
  | c :: r =>
      if c = '"' then some ([], r)
      else if c = '\\' then
        match r with
        | [] => none
        | e :: r2 =>
            let cont (d : Char) : Option (List Char × List Char) :=
              (parseStrBody r2).map (fun p => (d :: p.1, p.2))
            if e = '"' then cont '"'
            else if e = '\\' then cont '\\'
            else if e = '/' then cont '/'
            else if e = 'b' then cont '\x08'
            else if e = 'f' then cont '\x0c'
            else if e = 'n' then cont '\n'
            else if e = 'r' then cont '\r'
            else if e = 't' then cont '\t'
            else none
      else if c.toNat < 32 then none
      else (parseStrBody r).map (fun p => (c :: p.1, p.2))

/-- Parse an integer numeral (strict JSON: optional minus, no leading
zeros except `0` itself; a following `.`/`e`/`E` is outside the model). -/
def parseNum (s : List Char) : Option (Json × List Char) :=
  let (neg, s1) : Bool × List Char :=
    match s with
    | '-' :: r => (true, r)
    | _ => (false, s)
  let ds := s1.takeWhile isDigitChar
  let rest := s1.dropWhile isDigitChar
  if ds = [] then none
  else if ds.length > 1 && ds.headD '0' = '0' then none
  else
    match rest with
    | '.' :: _ => none
    | 'e' :: _ => none
    | 'E' :: _ => none
    | _ =>
        let n : Int := Int.ofNat (digitsToNat ds)
        some (Json.num (if neg then -n else n), rest)

mutual

/-- Parse one JSON value at the head of the input (no leading
whitespace), returning the value and the unconsumed rest. -/
def parseVal : Nat → List Char → Option (Json × List Char)
  | 0, _ => none
  | fuel + 1, s =>
      match s with
      | [] => none
      | c :: r =>
          if c = '\x7b' then
            match skipJsonWs r with
            | '\x7d' :: r2 => some (Json.obj [], r2)
            | r2 => parseMembers fuel r2
          else if c = '[' then
            match skipJsonWs r with
            | ']' :: r2 => some (Json.arr [], r2)
            | r2 => parseElems fuel r2
          else if c = '"' then
            (parseStrBody r).map (fun p => (Json.str (String.mk p.1), p.2))
          else if c = 't' then
            match s with
            | 't' :: 'r' :: 'u' :: 'e' :: r2 => some (Json.bool true, r2)
            | _ => none
          else if c = 'f' then
            match s with
            | 'f' :: 'a' :: 'l' :: 's' :: 'e' :: r2 => some (Json.bool false, r2)
            | _ => none
          else if c = 'n' then
            match s with
            | 'n' :: 'u' :: 'l' :: 'l' :: r2 => some (Json.null, r2)
            | _ => none
          else parseNum s

/-- Parse the members of an object, positioned at the first key. -/
def parseMembers : Nat → List Char → Option (Json × List Char)
  | 0, _ => none
  | fuel + 1, s =>
      match s with
      | '"' :: r =>
          match parseStrBody r with
          | none => none
          | some (key, r2) =>
              match skipJsonWs r2 with
              | ':' :: r3 =>
                  match parseVal fuel (skipJsonWs r3) with
                  | none => none
                  | some (v, r4) =>
                      match skipJsonWs r4 with
                      | ',' :: r5 =>
                          match parseMembers fuel (skipJsonWs r5) with
                          | some (Json.obj fs, r6) =>
                              some (Json.obj ((String.mk key, v) :: fs), r6)
                          | _ => none
                      | '\x7d' :: r5 =>
                          some (Json.obj [(String.mk key, v)], r5)
                      | _ => none
              | _ => none
      | _ => none

/-- Parse the elements of an array, positioned at the first element. -/
def parseElems : Nat → List Char → Option (Json × List Char)
  | 0, _ => none
  | fuel + 1, s =>
      match parseVal fuel s with
      | none => none
      | some (v, r) =>
          match skipJsonWs r with
          | ',' :: r2 =>
              match parseElems fuel (skipJsonWs r2) with
              | some (Json.arr vs, r3) => some (Json.arr (v :: vs), r3)
              | _ => none
          | ']' :: r2 => some (Json.arr [v], r2)
          | _ => none

end

/-- `json.loads(text)`: parse one JSON document, requiring the whole text
to be consumed; `none` models the `JSONDecodeError` the source catches. -/
def jsonLoads (s : List Char) : Option Json :=
  match parseVal (s.length + 1) (skipJsonWs s) with
  | some (v, rest) => if skipJsonWs rest = [] then some v else none
  | none => none

/-! ## The four response-parsing strategies
(`GeminiAPIManager`, `api_manager.py` lines 187-281). -/

/-- `parse_clean_json` (lines 209-211): `json.loads(text.strip())`. -/
def parse_clean_json (text : List Char) : Option Json :=
  jsonLoads (pyStrip text)

/-- `parse_markdown_json` (lines 213-221): cut the interior of the first
fenced block out with `str.split` and parse it; `none` models the raised
`ValueError`/`JSONDecodeError` the caller catches. -/
def parse_markdown_json (text : List Char) : Option Json :=
  if containsSub "```json".data text then
    jsonLoads (pyStrip
      (pyIndex (pySplit "```".data (pyIndex (pySplit "```json".data text) 1)) 0))
  else if containsSub "```".data text then
    jsonLoads (pyStrip
      (pyIndex (pySplit "```".data (pyIndex (pySplit "```".data text) 1)) 0))
  else none

/-- The scan of lines 229-242: walk the text from the first `\x7b`,
tracking raw brace depth (string literals are not recognised), and return
the slice up to the position where the depth first returns to zero;
`none` when the depth never does (the "Incomplete JSON object" error). -/
def braceTake (depth : Int) (acc : List Char) : List Char → Option (List Char)
  | [] => none
  | c :: r =>
      if c = '\x7b' then braceTake (depth + 1) (c :: acc) r
      else if c = '\x7d' then
        if depth - 1 = 0 then some (c :: acc).reverse
        else braceTake (depth - 1) (c :: acc) r
      else braceTake depth (c :: acc) r

/-- `text[start:end]` of `parse_partial_json`: from the first `\x7b` to
the matching raw-depth close; `none` when there is no `\x7b` (find
returned -1) or the depth never returns to zero. -/
def braceRegion (text : List Char) : Option (List Char) :=
  let rest := text.dropWhile (fun c => c ≠ '\x7b')
  if rest.isEmpty then none
  else braceTake 0 [] rest

/-- `parse_partial_json` (lines 223-245): brace-matched extraction, then
`json.loads` on the extracted slice. -/
def parse_partial_json (text : List Char) : Option Json :=
  (braceRegion text).bind jsonLoads

/-- Inner collection loop of `parse_line_by_line_json` once `in_json` is
set: keep appending lines, stopping (inclusively) at the first line whose
stripped form ends with `\x7d` and whose `\x7d` count reaches its `\x7b`
count. -/
def collectJsonLines : List (List Char) → List (List Char)
  | [] => []
  | l :: rest =>
      if pyEndsWith ['\x7d'] (pyStrip l) &&
          countChar '\x7b' l ≤ countChar '\x7d' l then [l]
      else l :: collectJsonLines rest

/-- Line-accumulation scan of lines 253-258: skip lines until one whose
stripped form starts with `\x7b`, then collect per `collectJsonLines`. -/
def accumJsonLines : List (List Char) → List (List Char)
  | [] => []
  | l :: rest =>
      if pyStartsWith ['\x7b'] (pyStrip l) then collectJsonLines (l :: rest)
      else accumJsonLines rest

/-- First repair pass of `fix_common_json_issues` (line 273):
`re.sub(r',(\s*[}\]])', r'\1', s)` — drop a comma standing directly
before (optional whitespace and) a closing brace or bracket; scanning
resumes after the kept bracket, as `re.sub` does.  Fuel keeps the
recursion structural. -/
def fixTCGo : Nat → List Char → List Char
  | 0, s => s
  | _ + 1, [] => []
  | fuel + 1, c :: xs =>
      if c = ',' then
        match xs.dropWhile isWsChar with
        | b :: rest =>
            if b = '\x7d' || b = ']' then
              xs.takeWhile isWsChar ++ b :: fixTCGo fuel rest
            else ',' :: fixTCGo fuel xs
        | [] => ',' :: fixTCGo fuel xs
      else c :: fixTCGo fuel xs

/-- Entry point of the first pass; every step consumes at least one
character, so fuel equal to the length never runs out. -/
def fixTrailingCommas (s : List Char) : List Char := fixTCGo s.length s

/-- Second repair pass (line 276):
`re.sub(r'(?<!\\)"(?![,\]\}:\s])', r'\\"', s)` — prefix a backslash to
every quote not already preceded by a backslash and not followed by one
of `,`, `]`, `\x7d`, `:` or whitespace (or end of text); lookbehind and
lookahead read the original text, as the regex does. -/
def escQuotes (prev : Option Char) : List Char → List Char
  | [] => []
  | c :: xs =>
      if c = '"' then
        let okBehind : Bool := prev ≠ some '\\'
        let okAhead : Bool :=
          match xs with
          | [] => true
          | n :: _ => !(n = ',' || n = ']' || n = '\x7d' || n = ':' || isWsChar n)
        if okBehind && okAhead then '\\' :: '"' :: escQuotes (some '"') xs
        else '"' :: escQuotes (some '"') xs
      else c :: escQuotes (some c) xs

/-- Third repair pass (line 279): remove the control characters
`[\x00-\x1f\x7f-\x9f]`. -/
def stripCtlChars (s : List Char) : List Char :=
  s.filter (fun c => !(c.toNat ≤ 0x1f || (0x7f ≤ c.toNat && c.toNat ≤ 0x9f)))

/-- `fix_common_json_issues` (lines 270-281): the three passes in order. -/
def fix_common_json_issues (s : List Char) : List Char :=
  stripCtlChars (escQuotes none (fixTrailingCommas s))

/-- `parse_line_by_line_json` (lines 247-268): split into lines,
accumulate a brace-delimited block, repair it, parse it. -/
def parse_line_by_line_json (text : List Char) : Option Json :=
  let jsonLines := accumJsonLines (pySplit ['\n'] text)
  if jsonLines.isEmpty then none
  else jsonLoads (fix_common_json_issues (List.intercalate ['\n'] jsonLines))

/-- A strategy result survives `parse_json_response`'s `if result:` test
only when it is Python-truthy. -/
def keepTruthy (r : Option Json) : Option Json :=
  r.bind (fun j => if jsonTruthy j then some j else none)

/-- `parse_json_response` (lines 187-207): try the four strategies in
order, returning the first truthy success; `none` when every strategy
fails or returns a falsy value. -/
def parse_json_response (text : List Char) : Option Json :=
  match keepTruthy (parse_clean_json text) with
  | some j => some j
  | none =>
  match keepTruthy (parse_markdown_json text) with
  | some j => some j
  | none =>
  match keepTruthy (parse_partial_json text) with
  | some j => some j
  | none => keepTruthy (parse_line_by_line_json text)

/-! ## Roles, default structures and `call_api`
(`GeminiAPIManager`, `api_manager.py` lines 119-184 and 283-345). -/

/-- The five remote-producer roles (`setup_models`, line 123). -/
inductive Role where
  | planner | architect | developer | reviewer | devops
deriving DecidableEq

/-- The shared "Parse failed" placeholder string. -/
def parseFailedMsg : String := "Parse failed - manual review needed"

/-- `get_default_structure` (lines 283-345): the hardcoded fallback
record per role.  The `\x7b"error": ..., "status": "failure"\x7d`
fallback for an unknown model name is unreachable for the five roles and
is not modelled. -/
def get_default_structure : Role → Json
  | Role.planner => Json.obj
      [("requirements", Json.arr [Json.str parseFailedMsg]),
       ("user_stories", Json.arr [Json.str parseFailedMsg]),
       ("acceptance_criteria", Json.arr [Json.str parseFailedMsg]),
       ("timeline", Json.str parseFailedMsg),
       ("status", Json.str "partial_failure")]
  | Role.architect => Json.obj
      [("architecture_type", Json.str "microservices"),
       ("tech_stack", Json.obj
         [("backend", Json.str "FastAPI"),
          ("frontend", Json.str "React"),
          ("database", Json.str "PostgreSQL")]),
       ("database_schema", Json.str parseFailedMsg),
       ("api_design", Json.str parseFailedMsg),
       ("status", Json.str "partial_failure")]
  | Role.developer => Json.obj
      [("modules", Json.arr
         [Json.str "backend", Json.str "frontend", Json.str "database"]),
       ("file_structure", Json.obj
         [("backend/", Json.str "FastAPI application structure"),
          ("frontend/", Json.str "React application structure"),
          ("database/", Json.str "Database migration files")]),
       ("code_files", Json.obj
         [("README.md", Json.str
            "# Project generated with parsing issues\\nManual review required."),
          ("main.py", Json.str
            "# Basic FastAPI app\\nfrom fastapi import FastAPI\\napp = FastAPI()\\n\\n@app.get(\x27/\x27)\\ndef read_root():\\n    return \x7b\x27Hello\x27: \x27World\x27\x7d"),
          ("requirements.txt", Json.str
            "fastapi\\nuvicorn\\nsqlalchemy\\npsycopg2")]),
       ("dependencies", Json.arr
         [Json.str "fastapi", Json.str "react", Json.str "postgresql"]),
       ("status", Json.str "partial_failure")]
  | Role.reviewer => Json.obj
      [("code_quality_score", Json.num 0),
       ("issues", Json.arr
         [Json.str "JSON parsing failed - manual code review required"]),
       ("suggestions", Json.arr
         [Json.str "Fix JSON parsing issues",
          Json.str "Manual code review needed"]),
       ("test_files", Json.obj
         [("test_main.py", Json.str
            "import pytest\\nfrom fastapi.testclient import TestClient\\nfrom main import app\\n\\nclient = TestClient(app)\\n\\ndef test_read_root():\\n    response = client.get(\x27/\x27)\\n    assert response.status_code == 200\\n    assert response.json() == \x7b\x27Hello\x27: \x27World\x27\x7d")]),
       ("security_report", Json.str parseFailedMsg),
       ("status", Json.str "partial_failure")]
  | Role.devops => Json.obj
      [("docker_files", Json.obj
         [("Dockerfile", Json.str
            "FROM python:3.9\\nWORKDIR /app\\nCOPY requirements.txt .\\nRUN pip install -r requirements.txt\\nCOPY . .\\nEXPOSE 8000\\nCMD [\"uvicorn\", \"main:app\", \"--host\", \"0.0.0.0\", \"--port\", \"8000\"]"),
          ("docker-compose.yml", Json.str
            "version: \x273.8\x27\\nservices:\\n  web:\\n    build: .\\n    ports:\\n      - \"8000:8000\"\\n  db:\\n    image: postgres:13\\n    environment:\\n      POSTGRES_DB: app\\n      POSTGRES_USER: user\\n      POSTGRES_PASSWORD: password")]),
       ("ci_cd_config", Json.obj
         [(".github/workflows/deploy.yml", Json.str
            "name: Deploy\\non:\\n  push:\\n    branches: [main]\\njobs:\\n  deploy:\\n    runs-on: ubuntu-latest\\n    steps:\\n      - uses: actions/checkout@v2\\n      - name: Build and Deploy\\n        run: |\\n          docker build -t app .\\n          docker run -d -p 8000:8000 app")]),
       ("k8s_manifests", Json.obj
         [("deployment.yaml", Json.str
            "apiVersion: apps/v1\\nkind: Deployment\\nmetadata:\\n  name: app\\nspec:\\n  replicas: 3\\n  selector:\\n    matchLabels:\\n      app: app\\n  template:\\n    metadata:\\n      labels:\\n        app: app\\n    spec:\\n      containers:\\n      - name: app\\n        image: app:latest\\n        ports:\\n        - containerPort: 8000")]),
       ("deployment_guide", Json.str parseFailedMsg),
       ("status", Json.str "partial_failure")]

/-- One attempt's remote behaviour: the producer either raised (any
exception inside the `try` of lines 131-175) or returned raw text. -/
inductive ProducerOutcome where
  | err : ProducerOutcome
  | ok : List Char → ProducerOutcome

/-- Observable outcome of one `call_api` invocation: the returned record,
how many remote-call attempts were made, and the backoff sleeps (in time
units) in the order they were awaited. -/
structure CallResult where
  result : Json
  calls : Nat
  sleeps : List Nat
deriving DecidableEq

/-- The `for attempt in range(max_retries)` loop of `call_api`
(lines 130-184), iterating over the remaining attempt indices.  A parsed
truthy record returns immediately; a parse failure (`None`) just
continues the loop; a raised exception sleeps `2 ** attempt` and retries
when `attempt < max_retries - 1` and otherwise returns the default
structure; falling off the loop (line 184) also returns the default
structure. -/
def callApiGo (p : Nat → ProducerOutcome) (role : Role) :
    List Nat → CallResult
  | [] => ⟨get_default_structure role, 0, []⟩
  | attempt :: rest =>
      match p attempt with
      | ProducerOutcome.ok text =>
          match parse_json_response text with
          | some r => ⟨r, 1, []⟩
          | none =>
              let o := callApiGo p role rest
              ⟨o.result, o.calls + 1, o.sleeps⟩
      | ProducerOutcome.err =>
          if attempt < 3 - 1 then
            let o := callApiGo p role rest
            ⟨o.result, o.calls + 1, 2 ^ attempt :: o.sleeps⟩
          else ⟨get_default_structure role, 1, []⟩

/-- `call_api` (lines 127-184) with `max_retries = 3`, parameterised by
the producer's behaviour per attempt. -/
def call_api (p : Nat → ProducerOutcome) (role : Role) : CallResult :=
  callApiGo p role (List.range 3)

/-- Attempt `a` fails: the remote call raises, or its text yields no
(truthy) record from any parsing strategy. -/
def attemptFails (p : Nat → ProducerOutcome) (a : Nat) : Prop :=
  match p a with
  | ProducerOutcome.err => True
  | ProducerOutcome.ok text => parse_json_response text = none

/-- Producer refuting C6 as stated: attempt 0 returns unparseable text
(the attempt fails with attempts remaining), attempt 1 returns a valid
record. -/
def cexProducerC6 : Nat → ProducerOutcome :=
  fun a => if a = 0 then ProducerOutcome.ok "garbage".data
           else ProducerOutcome.ok "\x7b\"k\":1\x7d".data

/-! ## Project context (`context.py`) and its persistence
(`workflow.py` lines 49-77). -/

/-- `ProjectContext` (context.py lines 6-20): the shared record threaded
through every stage. -/
structure ProjectContext where
  project_name : String
  requirements : Option Json
  architecture : Option Json
  codebase : Option Json
  test_results : Option Json
  deployment : Option Json
  created_at : String
  current_stage : String
deriving DecidableEq

/-- Dataclass construction plus `__post_init__` (lines 18-20): every
stage field starts absent, `current_stage` starts `"not_started"`, and
`created_at` is filled from the clock exactly when the given value is
Python-falsy (`None` or the empty string). -/
def initContext (project_name : String) (created_at : Option String)
    (now : String) : ProjectContext :=
  { project_name := project_name
    requirements := none
    architecture := none
    codebase := none
    test_results := none
    deployment := none
    created_at :=
      match created_at with
      | none => now
      | some s => if s = "" then now else s
    current_stage := "not_started" }

/-- `data.get(k)` for a stage field: a persisted JSON `null` loads as
Python `None`, i.e. an absent field. -/
def loadOptField (data : List (String × Json)) (k : String) : Option Json :=
  match dictGet data k with
  | none => none
  | some Json.null => none
  | some j => some j

/-- `load_existing_context` (workflow.py lines 49-69): restore the five
stage fields and `current_stage` from the persisted record — and nothing
else; in particular `created_at` is not restored.  A persisted
`current_stage` that is not a string would be assigned as-is in Python
and is outside this model (the system only ever persists strings
there). -/
def load_existing_context (ctx : ProjectContext)
    (data : List (String × Json)) : ProjectContext :=
  { ctx with
    requirements := loadOptField data "requirements"
    architecture := loadOptField data "architecture"
    codebase := loadOptField data "codebase"
    test_results := loadOptField data "test_results"
    deployment := loadOptField data "deployment"
    current_stage :=
      match dictGet data "current_stage" with
      | some (Json.str s) => s
      | _ => "not_started" }

/-- An absent stage field serialises as `null`. -/
def optFieldToJson : Option Json → Json
  | none => Json.null
  | some j => j

/-- `save_context` (workflow.py lines 71-77): the persisted form is
`asdict(self.context)`, with the dataclass's field order. -/
def contextToJson (ctx : ProjectContext) : List (String × Json) :=
  [("project_name", Json.str ctx.project_name),
   ("requirements", optFieldToJson ctx.requirements),
   ("architecture", optFieldToJson ctx.architecture),
   ("codebase", optFieldToJson ctx.codebase),
   ("test_results", optFieldToJson ctx.test_results),
   ("deployment", optFieldToJson ctx.deployment),
   ("created_at", Json.str ctx.created_at),
   ("current_stage", Json.str ctx.current_stage)]

/-! ## The staged workflow (`ProjectWorkflowManager`, `workflow.py`).

The remote side is abstracted by `WfEnv`: `stageResult role` is what the
(total, never-raising) `call_api` returns for the one
sequential call a stage makes with that role, and `moduleResult i` is
the outcome `asyncio.gather(..., return_exceptions=True)` records for
the i-th module task of the code stage (`Except.error` models a raised
task, e.g. cancellation; `call_api` itself never raises). -/

structure WfEnv where
  stageResult : Role → Json
  moduleResult : Nat → Except Unit Json

/-- The five stages, as identifiers for the attempt trace. -/
inductive StageId where
  | requirements | architecture | code | review | deployment
deriving DecidableEq

/-- Python truthiness of an optional stage field (`if not
self.context.X`). -/
def truthyOpt : Option Json → Bool
  | none => false
  | some j => jsonTruthy j

/-- Python truthiness of the optional `user_input` argument (`if not
user_input`): absent (None) and the empty string are falsy. -/
def inputTruthy : Option String → Bool
  | none => false
  | some s => !(s == "")

/-- `stage_1_requirements` (lines 100-123): set `current_stage`, call the
planner, store the result into `requirements`.  The prompt text, RAG
context and file persistence have no effect on the context model; the
returned number counts remote `call_api` invocations. -/
def stage_1_requirements (env : WfEnv) (ctx : ProjectContext)
    (_user_input : String) : ProjectContext × Nat :=
  let c := { ctx with current_stage := "requirements" }
  ({ c with requirements := some (env.stageResult Role.planner) }, 1)

/-- `stage_2_architecture` (lines 125-145). -/
def stage_2_architecture (env : WfEnv) (ctx : ProjectContext) :
    ProjectContext × Nat :=
  let c := { ctx with current_stage := "architecture" }
  ({ c with architecture := some (env.stageResult Role.architect) }, 1)

/-- Errors that can escape a workflow entry point: the explicit
`ValueError` of resume_workflow line 408, and an `AttributeError` (or
`TypeError`) raised inside a stage body when a stage result does not
have the record shape the code dereferences. -/
inductive WfError where
  | missingInput | attrError
deriving DecidableEq

/-- Extract an all-string module list; a non-string entry is a value the
`String`-keyed record model cannot represent as a module name (Python
would proceed for hashable entries), so it is routed to the error
path — conservative: the model may error where Python would proceed,
never the other way around. -/
def strNames : List Json → Except Unit (List String)
  | [] => Except.ok []
  | Json.str s :: rest => (strNames rest).map (fun ns => s :: ns)
  | _ :: _ => Except.error ()

/-- `self.context.architecture.get('modules', ['backend', 'frontend',
'database'])` followed by `for module in modules:` (lines 156 and 163).
On a record: an absent key gives the default list, an array gives its
elements, and — per Python's own iteration — a string yields its
characters and a record its keys, while a number, boolean or null
raises `TypeError`.  On a non-record (including an absent architecture,
i.e. `None`), `.get` raises `AttributeError`.  Both raises are
`Except.error`. -/
def modulesOf (arch : Json) : Except Unit (List String) :=
  match arch with
  | Json.obj fs =>
      match dictGet fs "modules" with
      | none => Except.ok ["backend", "frontend", "database"]
      | some (Json.arr xs) => strNames xs
      | some (Json.str s) =>
          Except.ok (s.data.map (fun c => String.mk [c]))
      | some (Json.obj fs2) => Except.ok (fs2.map Prod.fst)
      | some _ => Except.error ()
  | _ => Except.error ()

/-- `module_deps = results[i].get("dependencies", [])` followed by
`combined_result["dependencies"].extend(module_deps)` (lines 204-205).
On a record: an absent key gives `[]`, an array its elements, and — per
Python's `extend` — a string its characters and a record its keys,
while a number, boolean or null raises `TypeError`.  On a non-record
module result, `.get` raises `AttributeError`.  Both raises are
`Except.error`. -/
def depsOfResult (r : Json) : Except Unit (List Json) :=
  match r with
  | Json.obj fs =>
      match dictGet fs "dependencies" with
      | none => Except.ok []
      | some (Json.arr xs) => Except.ok xs
      | some (Json.str s) =>
          Except.ok (s.data.map (fun c => Json.str (String.mk [c])))
      | some (Json.obj fs2) =>
          Except.ok (fs2.map (fun p => Json.str p.1))
      | some _ => Except.error ()
  | _ => Except.error ()

/-- `list(set(deps))` (line 208): deduplication; Python's set order is
unspecified, the model keeps first occurrences in encounter order. -/
def dedupJson (xs : List Json) : List Json :=
  xs.foldl (fun acc x => if x ∈ acc then acc else acc ++ [x]) []

/-- Accumulator of the combine loop (lines 195-206). -/
structure CombineAcc where
  modulesFS : List (String × Json)
  deps : List Json
  failFlag : Bool
deriving DecidableEq

/-- The `for i, module in enumerate(modules)` loop of lines 195-206: a
raised task contributes the developer default structure and flips the
status to `"partial_failure"`; a returned record is stored as-is and
its declared dependencies appended — unless the dependency access
itself raises (`depsOfResult`), which aborts the whole loop, exactly as
the uncaught exception does in Python. -/
def combineFold (acc : CombineAcc) :
    List (String × Except Unit Json) → Except Unit CombineAcc
  | [] => Except.ok acc
  | (m, Except.error _) :: rest =>
      combineFold
        { modulesFS := dictSet acc.modulesFS m
            (get_default_structure Role.developer)
          deps := acc.deps
          failFlag := true } rest
  | (m, Except.ok r) :: rest =>
      match depsOfResult r with
      | Except.error e => Except.error e
      | Except.ok ds =>
          combineFold
            { modulesFS := dictSet acc.modulesFS m r
              deps := acc.deps ++ ds
              failFlag := acc.failFlag } rest

/-- `combined_result` of `stage_3_code_generation` (lines 188-208): the
fan-in of the per-module outcomes; `Except.error` when a module
result's dependency access raised out of the loop. -/
def combineResults (modules : List String)
    (results : List (Except Unit Json)) : Except Unit Json :=
  match combineFold ⟨[], [], false⟩ (modules.zip results) with
  | Except.error e => Except.error e
  | Except.ok acc =>
      Except.ok (Json.obj
        [("modules", Json.obj acc.modulesFS),
         ("file_structure", Json.obj []),
         ("dependencies", Json.arr (dedupJson acc.deps)),
         ("status", Json.str (if acc.failFlag then "partial_failure"
                              else "completed"))])

/-- `stage_3_code_generation` (lines 147-221): read the module list from
the architecture (raising `AttributeError` when it is absent or not a
record — line 156), fan out one developer call per module (the gather
outcomes come from `env.moduleResult` in order), combine, store into
`codebase`.  A raise out of the module-list read happens before any
module call; a raise out of the combine loop happens after all of them.
The returned number counts the remote `call_api` invocations made. -/
def stage_3_code_generation (env : WfEnv) (ctx : ProjectContext) :
    Except WfError ProjectContext × Nat :=
  let c := { ctx with current_stage := "code" }
  match c.architecture with
  | none => (Except.error WfError.attrError, 0)
  | some a =>
      match modulesOf a with
      | Except.error _ => (Except.error WfError.attrError, 0)
      | Except.ok modules =>
          let results := (List.range modules.length).map env.moduleResult
          match combineResults modules results with
          | Except.error _ =>
              (Except.error WfError.attrError, modules.length)
          | Except.ok combined =>
              (Except.ok { c with codebase := some combined },
               modules.length)

/-- `stage_4_review_and_test` (lines 249-283). -/
def stage_4_review_and_test (env : WfEnv) (ctx : ProjectContext) :
    ProjectContext × Nat :=
  let c := { ctx with current_stage := "review" }
  ({ c with test_results := some (env.stageResult Role.reviewer) }, 1)

/-- `stage_5_deployment` (lines 298-332). -/
def stage_5_deployment (env : WfEnv) (ctx : ProjectContext) :
    ProjectContext × Nat :=
  let c := { ctx with current_stage := "deployment" }
  ({ c with deployment := some (env.stageResult Role.devops) }, 1)

/-- Observable log of one workflow run: each stage attempted (with the
context snapshot at the moment it was entered) and the total number of
remote `call_api` invocations. -/
structure WfLog where
  attempts : List (StageId × ProjectContext)
  calls : Nat
deriving DecidableEq

/-- Lift a stage whose body cannot raise in the model (stages 1, 2, 4
and 5: their bodies only call the total `call_api` and assign) into the
fallible stage shape. -/
def totalStage (f : ProjectContext → ProjectContext × Nat)
    (c : ProjectContext) : Except WfError ProjectContext × Nat :=
  (Except.ok (f c).1, (f c).2)

/-- One `if not self.context.X: await stage_K()` step of
`resume_workflow` (lines 406-421): skipped when the field is truthy;
otherwise the stage runs on the current context (recorded as an
attempt), and a raise out of the stage body aborts the remaining steps,
as the uncaught exception does in Python. -/
def condStep (check : ProjectContext → Bool) (stid : StageId)
    (run : ProjectContext → Except WfError ProjectContext × Nat)
    (s : Except WfError ProjectContext × Nat ×
      List (StageId × ProjectContext)) :
    Except WfError ProjectContext × Nat ×
      List (StageId × ProjectContext) :=
  match s.1 with
  | Except.error _ => s
  | Except.ok c =>
      if check c then s
      else ((run c).1, s.2.1 + (run c).2, s.2.2 ++ [(stid, c)])

/-- Step 1 of `resume_workflow` (lines 406-409, after the input guard). -/
def resumeStep1 (env : WfEnv) (ctx : ProjectContext)
    (user_input : Option String) :
    Except WfError ProjectContext × Nat ×
      List (StageId × ProjectContext) :=
  condStep (fun c => truthyOpt c.requirements) StageId.requirements
    (totalStage (fun c => stage_1_requirements env c
      (match user_input with | some s => s | none => "")))
    (Except.ok ctx, 0, [])

/-- Step 2 (lines 411-412). -/
def resumeStep2 (env : WfEnv) (ctx : ProjectContext)
    (user_input : Option String) :
    Except WfError ProjectContext × Nat ×
      List (StageId × ProjectContext) :=
  condStep (fun c => truthyOpt c.architecture) StageId.architecture
    (totalStage (stage_2_architecture env))
    (resumeStep1 env ctx user_input)

/-- Step 3 (lines 414-415); the only step whose stage body can raise. -/
def resumeStep3 (env : WfEnv) (ctx : ProjectContext)
    (user_input : Option String) :
    Except WfError ProjectContext × Nat ×
      List (StageId × ProjectContext) :=
  condStep (fun c => truthyOpt c.codebase) StageId.code
    (stage_3_code_generation env)
    (resumeStep2 env ctx user_input)

/-- Step 4 (lines 417-418). -/
def resumeStep4 (env : WfEnv) (ctx : ProjectContext)
    (user_input : Option String) :
    Except WfError ProjectContext × Nat ×
      List (StageId × ProjectContext) :=
  condStep (fun c => truthyOpt c.test_results) StageId.review
    (totalStage (stage_4_review_and_test env))
    (resumeStep3 env ctx user_input)

/-- The five `if not self.context.X: await stage_K()` steps of
`resume_workflow` (lines 406-421), threading the context, the remote
call count and the attempt trace. -/
def resumeStages (env : WfEnv) (ctx : ProjectContext)
    (user_input : Option String) :
    Except WfError ProjectContext × Nat ×
      List (StageId × ProjectContext) :=
  condStep (fun c => truthyOpt c.deployment) StageId.deployment
    (totalStage (stage_5_deployment env))
    (resumeStep4 env ctx user_input)

/-- `resume_workflow` (lines 399-428): run, in order, every stage whose
context field is Python-falsy; raise `ValueError`
(`WfError.missingInput`) when the requirements field is falsy and no
truthy user input was supplied; a raise escaping a stage body
propagates out unchanged; otherwise finally set
`current_stage = "completed"`.  The `get_workflow_status` call on line
401 only logs and mutates nothing. -/
def resume_workflow (env : WfEnv) (ctx : ProjectContext)
    (user_input : Option String) :
    Except WfError ProjectContext × WfLog :=
  if !truthyOpt ctx.requirements && !inputTruthy user_input then
    (Except.error WfError.missingInput, ⟨[], 0⟩)
  else
    let s := resumeStages env ctx user_input
    match s.1 with
    | Except.ok c =>
        (Except.ok { c with current_stage := "completed" },
         ⟨s.2.2, s.2.1⟩)
    | Except.error e => (Except.error e, ⟨s.2.2, s.2.1⟩)

/-- `run_full_workflow` (lines 430-472): delegate to `resume_workflow`
when a run is already in progress, otherwise run the five stages in
sequence unconditionally; the catch-all of lines 468-472 re-raises
after saving, so a raise out of stage 3 propagates unchanged with the
earlier stages' work already done. -/
def run_full_workflow (env : WfEnv) (ctx : ProjectContext)
    (user_input : String) : Except WfError ProjectContext × WfLog :=
  if !(ctx.current_stage == "not_started") then
    resume_workflow env ctx (some user_input)
  else
    let r1 := stage_1_requirements env ctx user_input
    let r2 := stage_2_architecture env r1.1
    match stage_3_code_generation env r2.1 with
    | (Except.error e, n3) =>
        (Except.error e,
         ⟨[(StageId.requirements, ctx), (StageId.architecture, r1.1),
           (StageId.code, r2.1)], r1.2 + r2.2 + n3⟩)
    | (Except.ok c3, n3) =>
        let r4 := stage_4_review_and_test env c3
        let r5 := stage_5_deployment env r4.1
        (Except.ok { r5.1 with current_stage := "completed" },
         ⟨[(StageId.requirements, ctx), (StageId.architecture, r1.1),
           (StageId.code, r2.1), (StageId.review, c3),
           (StageId.deployment, r4.1)],
          r1.2 + r2.2 + n3 + r4.2 + r5.2⟩)

/-- Entry precondition of each stage: the previous stage's result field
is present (stage 1 has no predecessor). -/
def stagePrecond (st : StageId) (snap : ProjectContext) : Bool :=
  match st with
  | StageId.requirements => true
  | StageId.architecture => snap.requirements.isSome
  | StageId.code => snap.architecture.isSome
  | StageId.review => snap.codebase.isSome
  | StageId.deployment => snap.test_results.isSome

/-- All five stage fields are present (in the code's own sense: the
Python-truthiness test each `if not self.context.X` performs). -/
def allPresent (ctx : ProjectContext) : Bool :=
  truthyOpt ctx.requirements && truthyOpt ctx.architecture &&
  truthyOpt ctx.codebase && truthyOpt ctx.test_results &&
  truthyOpt ctx.deployment

/-- Context with all five stage fields present, for the C2 witness. -/
def ctxAllPresent : ProjectContext :=
  { project_name := "demo"
    requirements := some (Json.obj [("k", Json.num 1)])
    architecture := some (Json.obj [("k", Json.num 1)])
    codebase := some (Json.obj [("k", Json.num 1)])
    test_results := some (Json.obj [("k", Json.num 1)])
    deployment := some (Json.obj [("k", Json.num 1)])
    created_at := "t0"
    current_stage := "deployment" }

/-- Decidable equality of modelled raise-or-value outcomes. -/
instance {e a : Type} [DecidableEq e] [DecidableEq a] :
    DecidableEq (Except e a) := fun x y =>
  match x, y with
  | Except.ok v, Except.ok w =>
      if h : v = w then isTrue (by rw [h]) else
        isFalse (fun hh => by cases hh; exact h rfl)
  | Except.error v, Except.error w =>
      if h : v = w then isTrue (by rw [h]) else
        isFalse (fun hh => by cases hh; exact h rfl)
  | Except.ok _, Except.error _ => isFalse (by intro h; cases h)
  | Except.error _, Except.ok _ => isFalse (by intro h; cases h)

/-- Whether a modelled Python expression evaluated without raising. -/
def exOk {e a : Type} : Except e a → Bool
  | Except.ok _ => true
  | Except.error _ => false

/-- Environment whose producer always yields one fixed truthy record. -/
def envTriv : WfEnv :=
  { stageResult := fun _ => Json.obj [("k", Json.num 1)]
    moduleResult := fun _ => Except.ok (Json.obj [("k", Json.num 1)]) }

/-- `combined[k]` on the combined record. -/
def jsonField (j : Json) (k : String) : Option Json :=
  match j with
  | Json.obj fs => dictGet fs k
  | _ => none

/-- Environment whose code-stage fan-out lets modules 1 and 3 succeed
with the given records while module 2's task raises. -/
def fanoutEnvC4 (stageRes : Role → Json) (r1 r3 : Json) : WfEnv :=
  { stageResult := stageRes
    moduleResult := fun i =>
      if i = 0 then Except.ok r1
      else if i = 1 then Except.error () else Except.ok r3 }

/-- An architecture record declaring the three-module list. -/
def archThreeModules : Json :=
  Json.obj [("modules", Json.arr
    [Json.str "backend", Json.str "frontend", Json.str "database"])]

/-- Fresh in-memory context of a later run, created (per
`__post_init__`) with the new run's clock value. -/
def freshCtxC9 : ProjectContext := initContext "demo" none "2024-06-01T00:00:00"

/-- A context record persisted by an earlier run, carrying that run's
`created_at`. -/
def persistedC9 : List (String × Json) :=
  [("project_name", Json.str "demo"),
   ("requirements", Json.obj [("k", Json.num 1)]),
   ("architecture", Json.null),
   ("codebase", Json.null),
   ("test_results", Json.null),
   ("deployment", Json.null),
   ("created_at", Json.str "2023-01-01T00:00:00"),
   ("current_stage", Json.str "requirements")]

/-- The wrapped form considered in C8: the serialized record `s` inside
a `json`-tagged fenced block. -/
def fenceWrap (s : List Char) : List Char :=
  "```json\n".data ++ s ++ "\n```".data

/-! ## Theorems -/

theorem hasPrefix_length_le {sep xs : List Char} (h : hasPrefix sep xs = true) :
    sep.length ≤ xs.length := by
  induction sep generalizing xs with
  | nil => simp
  | cons a as2 ih =>
      cases xs with
      | nil => simp [hasPrefix] at h
      | cons b bs =>
          simp only [hasPrefix, Bool.and_eq_true] at h
          simpa using ih h.2

theorem splitFirst_length {sep xs a b : List Char}
    (h : splitFirst sep xs = some (a, b)) :
    b.length + sep.length ≤ xs.length := by
  induction xs generalizing a with
  | nil =>
      simp only [splitFirst] at h
      split at h
      · rename_i hp
        have := hasPrefix_length_le hp
        simp at this
        cases h
        simp [this]
      · cases h
  | cons c ys ih =>
      simp only [splitFirst] at h
      split at h
      · rename_i hp
        have hle := hasPrefix_length_le hp
        cases h
        rw [List.length_drop]
        omega
      · cases hsp : splitFirst sep ys with
        | none => rw [hsp] at h; cases h
        | some p =>
            rw [hsp] at h
            cases p with
            | mk p1 p2 =>
                simp only [Option.map_some'] at h
                cases h
                have := ih hsp
                simp
                omega

example : jsonLoads "\x7b\x7d".data = some (Json.obj []) := by decide

example : jsonLoads "\x7b\"a\":1\x7d".data =
    some (Json.obj [("a", Json.num 1)]) := by decide

example : jsonLoads "\x7b\"a\":1,\x7d".data = none := by decide

example : jsonLoads " \x7b\"a\": [1, -2], \"b\": \x7b\"c\": \"x\"\x7d\x7d ".data =
    some (Json.obj [("a", Json.arr [Json.num 1, Json.num (-2)]),
                    ("b", Json.obj [("c", Json.str "x")])]) := by decide

example : jsonTruthy (Json.obj []) = false := by decide

example : "ab".data = ['a', 'b'] := by decide

example : "\x7b\x7d".data = ['\x7b', '\x7d'] := rfl

example : parse_json_response "\x7b\x7d".data = none := by decide

example : fix_common_json_issues "\x7b\"a\":1,\x7d".data =
    "\x7b\\\"a\":1\x7d".data := by decide

example : parse_json_response "\x7b\"a\":1,\x7d".data = none := by decide

example : parse_json_response "\x7b\"a\":1\x7d".data =
    some (Json.obj [("a", Json.num 1)]) := by decide

theorem callApiGo_calls_le (p : Nat → ProducerOutcome) (role : Role) :
    ∀ l : List Nat, (callApiGo p role l).calls ≤ l.length := by
  intro l
  induction l with
  | nil => simp [callApiGo]
  | cons attempt rest ih =>
      simp only [callApiGo]
      cases hp : p attempt with
      | ok text =>
          cases hq : parse_json_response text with
          | some r => simp [hq]
          | none => simp [hq]; omega
      | err =>
          by_cases hlt : attempt < 3 - 1
          · simp [hlt]; omega
          · simp [hlt]

theorem callApiGo_result_default (p : Nat → ProducerOutcome) (role : Role) :
    ∀ l : List Nat, (∀ a ∈ l, attemptFails p a) →
      (callApiGo p role l).result = get_default_structure role := by
  intro l
  induction l with
  | nil => intro _; rfl
  | cons attempt rest ih =>
      intro h
      have hhd := h attempt (List.mem_cons_self _ _)
      have htl : ∀ a ∈ rest, attemptFails p a :=
        fun a ha => h a (List.mem_cons_of_mem _ ha)
      simp only [callApiGo]
      unfold attemptFails at hhd
      cases hp : p attempt with
      | ok text =>
          rw [hp] at hhd
          simp only at hhd
          simp [hhd, ih htl]
      | err =>
          by_cases hlt : attempt < 3 - 1
          · simp [hlt, ih htl]
          · simp [hlt]

theorem callApiGo_sleeps_nil (p : Nat → ProducerOutcome) (role : Role) :
    ∀ l : List Nat, (∀ a ∈ l, p a ≠ ProducerOutcome.err) →
      (callApiGo p role l).sleeps = [] := by
  intro l
  induction l with
  | nil => intro _; rfl
  | cons attempt rest ih =>
      intro h
      have hhd := h attempt (List.mem_cons_self _ _)
      have htl : ∀ a ∈ rest, p a ≠ ProducerOutcome.err :=
        fun a ha => h a (List.mem_cons_of_mem _ ha)
      simp only [callApiGo]
      cases hp : p attempt with
      | ok text =>
          cases hq : parse_json_response text with
          | some r => simp [hq]
          | none => simp [hq, ih htl]
      | err => exact absurd hp hhd

/-- C1: for each of the five roles and every producer behaviour,
`call_api` makes at most 3 remote-call attempts, and when every attempt
fails (the producer raises, or its text yields no record from any
strategy) the invocation returns the role's hardcoded default structure
rather than raising. -/
theorem claim_C1 (p : Nat → ProducerOutcome) (role : Role) :
    (call_api p role).calls ≤ 3 ∧
    ((∀ a, a < 3 → attemptFails p a) →
      (call_api p role).result = get_default_structure role) := by
  constructor
  · simpa using callApiGo_calls_le p role (List.range 3)
  · intro h
    refine callApiGo_result_default p role (List.range 3) ?_
    intro a ha
    exact h a (by simpa using ha)

/-- C1 witness: a producer that raises on every attempt makes at most 3
attempts and yields the planner's default structure. -/
theorem claim_C1_witness :
    (call_api (fun _ => ProducerOutcome.err) Role.planner).calls ≤ 3 ∧
    (call_api (fun _ => ProducerOutcome.err) Role.planner).result =
      get_default_structure Role.planner :=
  ⟨(claim_C1 (fun _ => ProducerOutcome.err) Role.planner).1,
   (claim_C1 (fun _ => ProducerOutcome.err) Role.planner).2
     (fun _ _ => trivial)⟩

/-- C6 counterexample: attempt 0 fails because parsing returns absence,
a retry follows (2 calls are made), yet the sleeps list is empty — the
client does not wait before retrying after a parse failure, refuting the
claim that every failed attempt with attempts remaining backs off. -/
theorem claim_C6_counterexample :
    parse_json_response "garbage".data = none ∧
    (call_api cexProducerC6 Role.planner).calls = 2 ∧
    (call_api cexProducerC6 Role.planner).sleeps = [] := by decide

/-- C6 amended: a backoff wait of `2 ^ attempt` time units (1 then 2)
precedes a retry only when the remote call itself raised with attempts
remaining; a parse-absence failure retries immediately with no wait.  A
producer that never raises produces no sleeps at all, and a producer
that always raises produces exactly the sleeps 1 and 2. -/
theorem claim_C6_amended (p : Nat → ProducerOutcome) (role : Role) :
    ((∀ a, p a ≠ ProducerOutcome.err) → (call_api p role).sleeps = []) ∧
    ((∀ a, p a = ProducerOutcome.err) → (call_api p role).sleeps = [1, 2]) := by
  constructor
  · intro h
    exact callApiGo_sleeps_nil p role (List.range 3) (fun a _ => h a)
  · intro h
    show (callApiGo p role [0, 1, 2]).sleeps = [1, 2]
    simp only [callApiGo, h 0, h 1, h 2]
    norm_num

/-- C6 amended witness: the always-raising producer sleeps exactly 1
then 2 time units. -/
theorem claim_C6_amended_witness :
    (call_api (fun _ => ProducerOutcome.err) Role.architect).sleeps = [1, 2] :=
  (claim_C6_amended (fun _ => ProducerOutcome.err) Role.architect).2
    (fun _ => rfl)

/-- A Python-truthy optional field is in particular present. -/
theorem isSome_of_truthyOpt {o : Option Json} (h : truthyOpt o = true) :
    o.isSome = true := by
  cases o with
  | none => simp [truthyOpt] at h
  | some j => rfl

theorem resume_allPresent (env : WfEnv) (ctx : ProjectContext)
    (input : Option String) (h : allPresent ctx = true) :
    resume_workflow env ctx input =
      (Except.ok { ctx with current_stage := "completed" },
       ⟨[], 0⟩) := by
  unfold allPresent at h
  rw [Bool.and_eq_true, Bool.and_eq_true, Bool.and_eq_true,
      Bool.and_eq_true] at h
  obtain ⟨⟨⟨⟨h1, h2⟩, h3⟩, h4⟩, h5⟩ := h
  simp [resume_workflow, resumeStages, resumeStep4, resumeStep3,
    resumeStep2, resumeStep1, condStep, h1, h2, h3, h4, h5]

/-- C2: when every stage field is already present (in the code's own
sense: Python-truthy), resuming is a no-op up to `current_stage`; a
second resume after a first one performs zero remote calls, attempts no
stage, and returns the context byte-for-byte unchanged. -/
theorem claim_C2 (env env2 : WfEnv) (ctx : ProjectContext)
    (input input2 : Option String) (c1 : ProjectContext)
    (h : allPresent ctx = true)
    (hrun : (resume_workflow env ctx input).1 = Except.ok c1) :
    resume_workflow env2 c1 input2 = (Except.ok c1, ⟨[], 0⟩) := by
  rw [resume_allPresent env ctx input h] at hrun
  simp only [Except.ok.injEq] at hrun
  subst hrun
  exact resume_allPresent env2 _ input2 h

/-- C2 witness: concrete all-present context; the second resume makes no
remote calls and returns its input context unchanged. -/
theorem claim_C2_witness :
    resume_workflow envTriv { ctxAllPresent with current_stage := "completed" }
        none =
      (Except.ok { ctxAllPresent with current_stage := "completed" },
       ⟨[], 0⟩) :=
  claim_C2 envTriv envTriv ctxAllPresent (some "x") none
    { ctxAllPresent with current_stage := "completed" }
    (by decide) rfl

theorem condStep_ok_cases (check : ProjectContext → Bool) (stid : StageId)
    (run : ProjectContext → Except WfError ProjectContext × Nat)
    (s : Except WfError ProjectContext × Nat ×
      List (StageId × ProjectContext)) (c2 : ProjectContext)
    (h : (condStep check stid run s).1 = Except.ok c2) :
    ∃ c, s.1 = Except.ok c ∧
      ((check c = true ∧ c2 = c) ∨
       (check c = false ∧ (run c).1 = Except.ok c2)) := by
  obtain ⟨sx, sn, st⟩ := s
  cases sx with
  | error e => simp [condStep] at h
  | ok c =>
      refine ⟨c, rfl, ?_⟩
      simp only [condStep] at h
      by_cases hc : check c
      · rw [if_pos hc] at h
        simp only at h
        cases h
        exact Or.inl ⟨hc, rfl⟩
      · rw [if_neg hc] at h
        exact Or.inr ⟨by simpa using hc, h⟩

theorem condStep_inv (check : ProjectContext → Bool) (stid : StageId)
    (run : ProjectContext → Except WfError ProjectContext × Nat)
    (s : Except WfError ProjectContext × Nat ×
      List (StageId × ProjectContext))
    (ih : ∀ p ∈ s.2.2, stagePrecond p.1 p.2 = true)
    (hpre : ∀ c, s.1 = Except.ok c → stagePrecond stid c = true) :
    ∀ p ∈ (condStep check stid run s).2.2,
      stagePrecond p.1 p.2 = true := by
  obtain ⟨sx, sn, st⟩ := s
  intro p hp
  cases sx with
  | error e =>
      simp only [condStep] at hp
      exact ih p hp
  | ok c =>
      simp only [condStep] at hp
      by_cases hc : check c
      · rw [if_pos hc] at hp
        exact ih p hp
      · rw [if_neg hc] at hp
        simp only at hp
        rcases List.mem_append.mp hp with h | h
        · exact ih p h
        · rcases List.mem_singleton.mp h with rfl
          exact hpre c rfl

/-- Destructured computation of stage 3: every raise out of its body is
an `attrError`, and a normal return has stored the combined record and
left `created_at` unchanged. -/
theorem stage3_cases (env : WfEnv) (c : ProjectContext) :
    (∀ e, (stage_3_code_generation env c).1 = Except.error e →
      e = WfError.attrError) ∧
    (∀ c2, (stage_3_code_generation env c).1 = Except.ok c2 →
      c2.codebase.isSome = true ∧ c2.created_at = c.created_at) := by
  obtain ⟨pn, rq, ar, cb, tr, dp, ca, cs⟩ := c
  cases ar with
  | none =>
      constructor
      · intro e he
        simp only [stage_3_code_generation] at he
        cases he
        rfl
      · intro c2 hc2
        simp only [stage_3_code_generation] at hc2
        cases hc2
  | some a =>
      cases hm : modulesOf a with
      | error u =>
          constructor
          · intro e he
            simp only [stage_3_code_generation, hm] at he
            cases he
            rfl
          · intro c2 hc2
            simp only [stage_3_code_generation, hm] at hc2
            cases hc2
      | ok ms =>
          cases hcb : combineResults ms
              ((List.range ms.length).map env.moduleResult) with
          | error u =>
              constructor
              · intro e he
                simp only [stage_3_code_generation, hm, hcb] at he
                cases he
                rfl
              · intro c2 hc2
                simp only [stage_3_code_generation, hm, hcb] at hc2
                cases hc2
          | ok combined =>
              constructor
              · intro e he
                simp only [stage_3_code_generation, hm, hcb] at he
                cases he
              · intro c2 hc2
                simp only [stage_3_code_generation, hm, hcb] at hc2
                cases hc2
                exact ⟨rfl, rfl⟩

theorem resumeStep1_ok (env : WfEnv) (ctx : ProjectContext)
    (input : Option String) :
    ∀ c, (resumeStep1 env ctx input).1 = Except.ok c →
      c.requirements.isSome = true ∧ c.architecture = ctx.architecture := by
  intro c h
  rcases condStep_ok_cases _ _ _ _ _ h with ⟨c0, h0, hcase⟩
  have hc0 : c0 = ctx := by
    simp only at h0
    cases h0
    rfl
  subst hc0
  rcases hcase with ⟨hc, rfl⟩ | ⟨hc, hrun⟩
  · exact ⟨isSome_of_truthyOpt hc, rfl⟩
  · simp only [totalStage] at hrun
    cases hrun
    exact ⟨rfl, rfl⟩

theorem resumeStep2_ok (env : WfEnv) (ctx : ProjectContext)
    (input : Option String) :
    ∀ c, (resumeStep2 env ctx input).1 = Except.ok c →
      c.architecture.isSome = true ∧
      (c.architecture = ctx.architecture ∨
       c.architecture = some (env.stageResult Role.architect)) := by
  intro c h
  rcases condStep_ok_cases _ _ _ _ _ h with ⟨c1, h1, hcase⟩
  have hr1 := resumeStep1_ok env ctx input c1 h1
  rcases hcase with ⟨hc, rfl⟩ | ⟨hc, hrun⟩
  · exact ⟨isSome_of_truthyOpt hc, Or.inl hr1.2⟩
  · simp only [totalStage] at hrun
    cases hrun
    exact ⟨rfl, Or.inr rfl⟩

theorem resumeStep3_ok (env : WfEnv) (ctx : ProjectContext)
    (input : Option String) :
    ∀ c, (resumeStep3 env ctx input).1 = Except.ok c →
      c.codebase.isSome = true := by
  intro c h
  rcases condStep_ok_cases _ _ _ _ _ h with ⟨c2, _, hcase⟩
  rcases hcase with ⟨hc, rfl⟩ | ⟨hc, hrun⟩
  · exact isSome_of_truthyOpt hc
  · exact ((stage3_cases env c2).2 c hrun).1

theorem resumeStep4_ok (env : WfEnv) (ctx : ProjectContext)
    (input : Option String) :
    ∀ c, (resumeStep4 env ctx input).1 = Except.ok c →
      c.test_results.isSome = true := by
  intro c h
  rcases condStep_ok_cases _ _ _ _ _ h with ⟨c3, _, hcase⟩
  rcases hcase with ⟨hc, rfl⟩ | ⟨hc, hrun⟩
  · exact isSome_of_truthyOpt hc
  · simp only [totalStage] at hrun
    cases hrun
    rfl

theorem resumeStages_precond (env : WfEnv) (ctx : ProjectContext)
    (input : Option String) :
    ∀ p ∈ (resumeStages env ctx input).2.2,
      stagePrecond p.1 p.2 = true := by
  unfold resumeStages
  refine condStep_inv _ _ _ _ ?_
    (fun c hok => resumeStep4_ok env ctx input c hok)
  unfold resumeStep4
  refine condStep_inv _ _ _ _ ?_
    (fun c hok => resumeStep3_ok env ctx input c hok)
  unfold resumeStep3
  refine condStep_inv _ _ _ _ ?_
    (fun c hok => (resumeStep2_ok env ctx input c hok).1)
  unfold resumeStep2
  refine condStep_inv _ _ _ _ ?_
    (fun c hok => (resumeStep1_ok env ctx input c hok).1)
  unfold resumeStep1
  refine condStep_inv _ _ _ _ ?_ (fun c _ => rfl)
  intro p hp
  simp at hp

theorem resume_precond (env : WfEnv) (ctx : ProjectContext)
    (input : Option String) (st : StageId) (snap : ProjectContext)
    (hmem : (st, snap) ∈ (resume_workflow env ctx input).2.attempts) :
    stagePrecond st snap = true := by
  unfold resume_workflow at hmem
  by_cases h0 : !truthyOpt ctx.requirements && !inputTruthy input
  · rw [if_pos h0] at hmem
    simp at hmem
  · rw [if_neg h0] at hmem
    simp only [] at hmem
    have hmem2 : (st, snap) ∈ (resumeStages env ctx input).2.2 := by
      cases hs : (resumeStages env ctx input).1 with
      | ok c =>
          rw [hs] at hmem
          simpa using hmem
      | error e =>
          rw [hs] at hmem
          simpa using hmem
    exact resumeStages_precond env ctx input (st, snap) hmem2

/-- C3: in both entry points, a stage is never attempted while the
previous stage's result field is absent — every attempt recorded in the
trace satisfies its entry precondition at its snapshot. -/
theorem claim_C3 (env : WfEnv) (ctx : ProjectContext)
    (input : Option String) (ui : String) (st : StageId)
    (snap : ProjectContext) :
    ((st, snap) ∈ (resume_workflow env ctx input).2.attempts →
      stagePrecond st snap = true) ∧
    ((st, snap) ∈ (run_full_workflow env ctx ui).2.attempts →
      stagePrecond st snap = true) := by
  refine ⟨resume_precond env ctx input st snap, ?_⟩
  intro hmem
  unfold run_full_workflow at hmem
  by_cases hst : !(ctx.current_stage == "not_started")
  · rw [if_pos hst] at hmem
    exact resume_precond env ctx (some ui) st snap hmem
  · rw [if_neg hst] at hmem
    simp only [] at hmem
    cases h3 : stage_3_code_generation env
        ((stage_2_architecture env
          (stage_1_requirements env ctx ui).1).1) with
    | mk x3 n3 =>
        cases x3 with
        | error e =>
            rw [h3] at hmem
            simp only [stage_1_requirements, stage_2_architecture] at hmem
            simp at hmem
            rcases hmem with ⟨rfl, rfl⟩ | ⟨rfl, rfl⟩ | ⟨rfl, rfl⟩ <;> rfl
        | ok c3 =>
            have hcb : c3.codebase.isSome = true :=
              ((stage3_cases env _).2 c3
                (by rw [h3])).1
            rw [h3] at hmem
            simp only [stage_1_requirements, stage_2_architecture,
              stage_4_review_and_test] at hmem
            simp at hmem
            rcases hmem with ⟨rfl, rfl⟩ | ⟨rfl, rfl⟩ | ⟨rfl, rfl⟩ |
              ⟨rfl, rfl⟩ | ⟨rfl, rfl⟩
            · rfl
            · rfl
            · rfl
            · exact hcb
            · rfl

/-- C3 witness: on a fresh context the architecture stage's attempt
snapshot (the context after stage 1) has requirements present. -/
theorem claim_C3_witness :
    stagePrecond StageId.architecture
      ((stage_1_requirements envTriv (initContext "demo" none "t0")
        "build").1) = true :=
  (claim_C3 envTriv (initContext "demo" none "t0") (some "build") "build"
    StageId.architecture
    ((stage_1_requirements envTriv (initContext "demo" none "t0")
      "build").1)).1 (by decide)

/-- C4: in the fan-out over 3 modules, when module 2's task raises and
modules 1 and 3 succeed with record-shaped results (the claim's "real
per-module records": any results whose dependency access does not
raise), the combined result maps modules 1 and 3 to those records, maps
module 2 to the developer default structure, and carries status
`"partial_failure"`; and the code stage still completes, storing
exactly this combined record into the context — one module's failure
aborts neither its siblings nor the stage. -/
theorem claim_C4 (r1 r3 : Json) (stageRes : Role → Json)
    (ctx : ProjectContext)
    (hr1 : exOk (depsOfResult r1) = true)
    (hr3 : exOk (depsOfResult r3) = true) :
    ∃ C : Json,
      combineResults ["backend", "frontend", "database"]
          [Except.ok r1, Except.error (), Except.ok r3] =
        Except.ok C ∧
      jsonField C "modules" =
        some (Json.obj
          [("backend", r1),
           ("frontend", get_default_structure Role.developer),
           ("database", r3)]) ∧
      jsonField C "status" = some (Json.str "partial_failure") ∧
      ∃ c2 : ProjectContext,
        (stage_3_code_generation (fanoutEnvC4 stageRes r1 r3)
          { ctx with architecture := some archThreeModules }).1 =
            Except.ok c2 ∧
        c2.codebase = some C := by
  obtain ⟨ds1, hds1⟩ : ∃ ds, depsOfResult r1 = Except.ok ds := by
    cases h : depsOfResult r1 with
    | ok ds => exact ⟨ds, rfl⟩
    | error u => rw [h] at hr1; simp [exOk] at hr1
  obtain ⟨ds3, hds3⟩ : ∃ ds, depsOfResult r3 = Except.ok ds := by
    cases h : depsOfResult r3 with
    | ok ds => exact ⟨ds, rfl⟩
    | error u => rw [h] at hr3; simp [exOk] at hr3
  have hcomb : combineResults ["backend", "frontend", "database"]
      [Except.ok r1, Except.error (), Except.ok r3] =
      Except.ok (Json.obj
        [("modules", Json.obj
          [("backend", r1),
           ("frontend", get_default_structure Role.developer),
           ("database", r3)]),
         ("file_structure", Json.obj []),
         ("dependencies", Json.arr (dedupJson (ds1 ++ ds3))),
         ("status", Json.str "partial_failure")]) := by
    simp [combineResults, combineFold, dictSet, hds1, hds3, List.zip]
  refine ⟨_, hcomb, by simp [jsonField, dictGet],
    by simp [jsonField, dictGet], ?_⟩
  have hm : modulesOf archThreeModules =
      Except.ok ["backend", "frontend", "database"] := rfl
  have hst : (stage_3_code_generation (fanoutEnvC4 stageRes r1 r3)
      { ctx with architecture := some archThreeModules }).1 =
      Except.ok
        { ctx with
            architecture := some archThreeModules
            current_stage := "code"
            codebase := some (Json.obj
              [("modules", Json.obj
                [("backend", r1),
                 ("frontend", get_default_structure Role.developer),
                 ("database", r3)]),
               ("file_structure", Json.obj []),
               ("dependencies", Json.arr (dedupJson (ds1 ++ ds3))),
               ("status", Json.str "partial_failure")]) } := by
    simp only [stage_3_code_generation, hm]
    rw [show List.map (fanoutEnvC4 stageRes r1 r3).moduleResult
        (List.range (["backend", "frontend", "database"] :
          List String).length) =
        [Except.ok r1, Except.error (), Except.ok r3] from rfl]
    rw [hcomb]
  exact ⟨_, hst, rfl⟩

/-- C4 witness: two concrete record results around a raised module-2
task. -/
theorem claim_C4_witness :
    ∃ C : Json,
      combineResults ["backend", "frontend", "database"]
          [Except.ok (Json.obj
            [("dependencies", Json.arr [Json.str "fastapi"])]),
           Except.error (),
           Except.ok (Json.obj [("k", Json.num 1)])] =
        Except.ok C ∧
      jsonField C "modules" =
        some (Json.obj
          [("backend", Json.obj
            [("dependencies", Json.arr [Json.str "fastapi"])]),
           ("frontend", get_default_structure Role.developer),
           ("database", Json.obj [("k", Json.num 1)])]) ∧
      jsonField C "status" = some (Json.str "partial_failure") ∧
      ∃ c2 : ProjectContext,
        (stage_3_code_generation
          (fanoutEnvC4 envTriv.stageResult
            (Json.obj [("dependencies", Json.arr [Json.str "fastapi"])])
            (Json.obj [("k", Json.num 1)]))
          { initContext "demo" none "t0" with
            architecture := some archThreeModules }).1 =
            Except.ok c2 ∧
        c2.codebase = some C :=
  claim_C4 (Json.obj [("dependencies", Json.arr [Json.str "fastapi"])])
    (Json.obj [("k", Json.num 1)]) envTriv.stageResult
    (initContext "demo" none "t0") (by decide) (by decide)

/-- C9 counterexample: loading a previously persisted context and saving
it again does not preserve the originally persisted `created_at` —
`load_existing_context` never restores it, so the re-saved record
carries the new run's timestamp instead of the persisted
`2023-01-01T00:00:00`. -/
theorem claim_C9_counterexample :
    dictGet (contextToJson (load_existing_context freshCtxC9 persistedC9))
        "created_at" = some (Json.str "2024-06-01T00:00:00") ∧
    dictGet persistedC9 "created_at" =
      some (Json.str "2023-01-01T00:00:00") ∧
    dictGet (contextToJson (load_existing_context freshCtxC9 persistedC9))
        "created_at" ≠ dictGet persistedC9 "created_at" := by decide

theorem condStep_created (v : String) (check : ProjectContext → Bool)
    (stid : StageId)
    (run : ProjectContext → Except WfError ProjectContext × Nat)
    (s : Except WfError ProjectContext × Nat ×
      List (StageId × ProjectContext))
    (ih : ∀ c, s.1 = Except.ok c → c.created_at = v)
    (hrun : ∀ c c2, (run c).1 = Except.ok c2 →
      c2.created_at = c.created_at) :
    ∀ c2, (condStep check stid run s).1 = Except.ok c2 →
      c2.created_at = v := by
  intro c2 h
  rcases condStep_ok_cases _ _ _ _ _ h with ⟨c, hc, hcase⟩
  rcases hcase with ⟨_, rfl⟩ | ⟨_, hr⟩
  · exact ih _ hc
  · exact (hrun c c2 hr).trans (ih c hc)

theorem resumeStages_created_at (env : WfEnv) (ctx : ProjectContext)
    (input : Option String) :
    ∀ c2, (resumeStages env ctx input).1 = Except.ok c2 →
      c2.created_at = ctx.created_at := by
  unfold resumeStages
  refine condStep_created _ _ _ _ _ ?_ ?_
  · unfold resumeStep4
    refine condStep_created _ _ _ _ _ ?_ ?_
    · unfold resumeStep3
      refine condStep_created _ _ _ _ _ ?_ ?_
      · unfold resumeStep2
        refine condStep_created _ _ _ _ _ ?_ ?_
        · unfold resumeStep1
          refine condStep_created _ _ _ _ _ ?_ ?_
          · intro c hc
            simp only at hc
            cases hc
            rfl
          · intro c c2 hr
            simp only [totalStage] at hr
            cases hr
            rfl
        · intro c c2 hr
          simp only [totalStage] at hr
          cases hr
          rfl
      · intro c c2 hr
        exact ((stage3_cases env c).2 c2 hr).2
    · intro c c2 hr
      simp only [totalStage] at hr
      cases hr
      rfl
  · intro c c2 hr
    simp only [totalStage] at hr
    cases hr
    rfl

/-- C9 amended: `created_at` is set exactly once, at in-memory context
creation, and no workflow stage nor `load_existing_context` modifies the
in-memory value; however `load_existing_context` does not restore the
persisted `created_at`, so saving a reloaded context persists the new
run's creation time rather than the originally persisted one. -/
theorem claim_C9_amended :
    (∀ ctx data,
      (load_existing_context ctx data).created_at = ctx.created_at) ∧
    (∀ name now, (initContext name none now).created_at = now) ∧
    (∀ (env : WfEnv) (ctx : ProjectContext) (input : Option String)
        (c1 : ProjectContext) (l : WfLog),
      resume_workflow env ctx input = (Except.ok c1, l) →
        c1.created_at = ctx.created_at) := by
  refine ⟨fun ctx data => rfl, fun name now => rfl, ?_⟩
  intro env ctx input c1 l hrun
  unfold resume_workflow at hrun
  by_cases h0 : !truthyOpt ctx.requirements && !inputTruthy input
  · rw [if_pos h0] at hrun
    simp at hrun
  · rw [if_neg h0] at hrun
    simp only [] at hrun
    cases hs : (resumeStages env ctx input).1 with
    | error e =>
        rw [hs] at hrun
        simp at hrun
    | ok c =>
        rw [hs] at hrun
        simp only [Prod.mk.injEq, Except.ok.injEq] at hrun
        rw [← hrun.1]
        exact resumeStages_created_at env ctx input c hs

/-- C9 amended witness: a concrete resumed run keeps the fresh context's
creation timestamp. -/
theorem claim_C9_amended_witness :
    ∃ (c1 : ProjectContext) (l : WfLog),
      resume_workflow envTriv (initContext "demo" none "t0") (some "go") =
        (Except.ok c1, l) ∧ c1.created_at = "t0" :=
  ⟨_, _, rfl,
    claim_C9_amended.2.2 envTriv (initContext "demo" none "t0")
      (some "go") _ _ rfl⟩

/-- C10: the well-formed text `\x7b\x7d` parses (per `json.loads`) to the
empty record, yet `parse_json_response` reports absence: every
strategy's result is accepted only when Python-truthy, and the empty
record is falsy. -/
theorem claim_C10 :
    jsonLoads "\x7b\x7d".data = some (Json.obj []) ∧
    parse_json_response "\x7b\x7d".data = none := by decide

/-- C7: on the raw text `\x7b"a":1,\x7d`, the first repair pass does
strip the trailing comma, but the second pass then escapes the key's
opening quote (its lookahead only protects quotes followed by
`,`/`]`/`\x7d`/`:`/whitespace), producing `\x7b\\"a":1\x7d`, which no
longer parses; the line-accumulation strategy — and with it the whole
`parse_json_response` — therefore yields absence instead of the record
`\x7ba: 1\x7d` the specification describes. -/
theorem claim_C7 :
    fixTrailingCommas "\x7b\"a\":1,\x7d".data = "\x7b\"a\":1\x7d".data ∧
    fix_common_json_issues "\x7b\"a\":1,\x7d".data =
      "\x7b\\\"a\":1\x7d".data ∧
    parse_line_by_line_json "\x7b\"a\":1,\x7d".data = none ∧
    parse_json_response "\x7b\"a\":1,\x7d".data = none := by decide

/-! ## C8: fenced-block parse versus brace-matched parse. -/

theorem hasPrefix_append_left {p q xs : List Char}
    (h : hasPrefix (p ++ q) xs = true) : hasPrefix p xs = true := by
  induction p generalizing xs with
  | nil => rfl
  | cons a as2 ih =>
      cases xs with
      | nil => simp [hasPrefix] at h
      | cons b bs =>
          simp only [List.cons_append, hasPrefix, Bool.and_eq_true] at h ⊢
          exact ⟨h.1, ih h.2⟩

theorem hasPrefix_newline_bound :
    ∀ sep : List Char, ('\n' : Char) ∉ sep →
      ∀ a t : List Char, hasPrefix sep (a ++ '\n' :: t) = true →
        hasPrefix sep a = true := by
  intro sep
  induction sep with
  | nil => intro _ a t _; rfl
  | cons c cs ih =>
      intro hn a t h
      cases a with
      | nil =>
          exfalso
          simp only [List.nil_append, hasPrefix, Bool.and_eq_true] at h
          have hc : c = '\n' := by
            have h1 := h.1
            exact of_decide_eq_true h1
          exact hn (by simp [hc])
      | cons b bs =>
          simp only [List.cons_append, hasPrefix, Bool.and_eq_true] at h ⊢
          exact ⟨h.1, ih (fun hm => hn (List.mem_cons_of_mem _ hm)) bs t h.2⟩

theorem containsSub_cons_false {sep : List Char} {c : Char}
    {s2 : List Char} :
    containsSub sep (c :: s2) = false ↔
      hasPrefix sep (c :: s2) = false ∧ containsSub sep s2 = false := by
  unfold containsSub
  simp only [splitFirst]
  by_cases hp : hasPrefix sep (c :: s2)
  · simp [hp]
  · simp [hp, Option.isSome_map']

theorem splitFirst_json_none :
    ∀ s : List Char, containsSub "```".data s = false →
      splitFirst "```json".data (s ++ "\n```".data) = none := by
  intro s
  induction s with
  | nil => intro _; decide
  | cons c s2 ih =>
      intro h
      rw [containsSub_cons_false] at h
      have hnp : hasPrefix "```json".data
          (c :: (s2 ++ "\n```".data)) = false := by
        cases hb : hasPrefix "```json".data (c :: (s2 ++ "\n```".data)) with
        | false => rfl
        | true =>
            have h3 : hasPrefix "```".data
                ((c :: s2) ++ '\n' :: "```".data) = true := by
              have hsplit : ("```json".data : List Char) =
                  "```".data ++ "json".data := by decide
              have hb2 : hasPrefix ("```".data ++ "json".data)
                  (c :: (s2 ++ "\n```".data)) = true := by
                rw [← hsplit]; exact hb
              exact hasPrefix_append_left hb2
            have h4 := hasPrefix_newline_bound "```".data (by decide)
              (c :: s2) "```".data h3
            exact absurd h4 (by simp [h.1])
      show splitFirst "```json".data (c :: (s2 ++ "\n```".data)) = none
      simp only [splitFirst, hnp, Bool.false_eq_true, if_false]
      rw [ih h.2]
      rfl

theorem splitFirst_bt_some :
    ∀ s : List Char, containsSub "```".data s = false →
      splitFirst "```".data (s ++ '\n' :: "```".data) =
        some (s ++ ['\n'], []) := by
  intro s
  induction s with
  | nil => intro _; decide
  | cons c s2 ih =>
      intro h
      rw [containsSub_cons_false] at h
      have hnp : hasPrefix "```".data
          (c :: (s2 ++ '\n' :: "```".data)) = false := by
        cases hb : hasPrefix "```".data
            (c :: (s2 ++ '\n' :: "```".data)) with
        | false => rfl
        | true =>
            have h4 := hasPrefix_newline_bound "```".data (by decide)
              (c :: s2) "```".data hb
            exact absurd h4 (by simp [h.1])
      show splitFirst "```".data (c :: (s2 ++ '\n' :: "```".data)) =
        some ((c :: s2) ++ ['\n'], [])
      simp only [splitFirst, hnp, Bool.false_eq_true, if_false]
      rw [ih h.2]
      rfl

theorem pyStrip_wrap (xs : List Char) :
    pyStrip ('\n' :: (xs ++ ['\n'])) = pyStrip xs := by
  unfold pyStrip
  have h1 : List.dropWhile isWsChar ('\n' :: (xs ++ ['\n'])) =
      List.dropWhile isWsChar (xs ++ ['\n']) := by
    simp [List.dropWhile, isWsChar]
  rw [h1, List.dropWhile_append]
  by_cases he : (List.dropWhile isWsChar xs).isEmpty
  · rw [if_pos he]
    have hxe : List.dropWhile isWsChar xs = [] := by
      simpa [List.isEmpty_iff] using he
    rw [hxe]
    decide
  · rw [if_neg he]
    rw [List.reverse_append]
    have h2 : (['\n'] : List Char).reverse = ['\n'] := rfl
    rw [h2, List.singleton_append]
    have h3 : List.dropWhile isWsChar
        ('\n' :: (List.dropWhile isWsChar xs).reverse) =
        List.dropWhile isWsChar (List.dropWhile isWsChar xs).reverse := by
      simp [List.dropWhile, isWsChar]
    rw [h3]

/-- One structural unfolding of the fuel-bounded split loop. -/
theorem pySplitGo_succ (sep : List Char) (fuel : Nat) (xs : List Char) :
    pySplitGo sep (fuel + 1) xs =
      match splitFirst sep xs with
      | none => [xs]
      | some (a, b) => a :: pySplitGo sep fuel b := rfl

/-- Two unfoldings: a first hit with an empty prefix, then no further
occurrence. -/
theorem pySplitGo_two (sep xs b : List Char) (fuel : Nat)
    (h1 : splitFirst sep xs = some ([], b))
    (h2 : splitFirst sep b = none) :
    pySplitGo sep (fuel + 2) xs = [[], b] := by
  rw [show fuel + 2 = (fuel + 1) + 1 from rfl, pySplitGo_succ, h1]
  show ([] : List Char) :: pySplitGo sep (fuel + 1) b = [[], b]
  rw [pySplitGo_succ, h2]

/-- C8 amended: for every interior text `s` that contains no
triple-backtick, is already stripped, and whose brace-matched region is
the whole text (no brace characters hide inside string literals),
fenced-block parsing of the wrapped text agrees with brace-matched
parsing of the interior. -/
theorem claim_C8_amended (s : List Char)
    (hbt : containsSub "```".data s = false)
    (hstrip : pyStrip s = s)
    (hbrace : braceRegion s = some s) :
    parse_markdown_json (fenceWrap s) = parse_partial_json s := by
  have hR : parse_partial_json s = jsonLoads s := by
    unfold parse_partial_json
    rw [hbrace]
    rfl
  have hcontain : containsSub "```json".data (fenceWrap s) = true := rfl
  have hsf1 : splitFirst "```json".data (fenceWrap s) =
      some ([], '\n' :: (s ++ "\n```".data)) := rfl
  have hsf2 : splitFirst "```json".data
      ('\n' :: (s ++ "\n```".data)) = none := by
    simp only [splitFirst]
    have hp : hasPrefix "```json".data
        ('\n' :: (s ++ "\n```".data)) = false := rfl
    rw [hp]
    simp only [Bool.false_eq_true, if_false]
    rw [splitFirst_json_none s hbt]
    rfl
  have hlen : (fenceWrap s).length = s.length + 12 := by
    show (("```json\n".data : List Char) ++
      (s ++ "\n```".data)).length = s.length + 12
    rw [List.length_append, List.length_append,
      show ("```json\n".data : List Char).length = 8 from rfl,
      show ("\n```".data : List Char).length = 4 from rfl]
    omega
  have hE1 : pyIndex (pySplit "```json".data (fenceWrap s)) 1 =
      '\n' :: (s ++ "\n```".data) := by
    unfold pySplit
    rw [if_neg (by decide : ¬("```json".data : List Char) = [])]
    rw [show (fenceWrap s).length + 1 = (s.length + 11) + 2 by
      rw [hlen]]
    rw [pySplitGo_two _ _ _ _ hsf1 hsf2]
    rfl
  have hcons : containsSub "```".data ('\n' :: s) = false := by
    rw [containsSub_cons_false]
    exact ⟨rfl, hbt⟩
  have hsf3 : splitFirst "```".data ('\n' :: (s ++ "\n```".data)) =
      some ('\n' :: (s ++ ['\n']), []) :=
    splitFirst_bt_some ('\n' :: s) hcons
  have hE2 : pyIndex (pySplit "```".data
      ('\n' :: (s ++ "\n```".data))) 0 = '\n' :: (s ++ ['\n']) := by
    unfold pySplit
    rw [if_neg (by decide : ¬("```".data : List Char) = [])]
    rw [pySplitGo_succ, hsf3]
    rfl
  rw [hR]
  unfold parse_markdown_json
  rw [if_pos hcontain, hE1, hE2, pyStrip_wrap, hstrip]

/-- C8 counterexample: the record whose single field holds the string
`"\x7d"` — a JSON record wrapped in a fenced block — parses via the
fenced-block strategy, but brace-matched parsing of the unwrapped
interior truncates at the `\x7d` inside the string literal and yields
nothing, so the two parses disagree. -/
theorem claim_C8_counterexample :
    parse_markdown_json "```json\n\x7b\"a\":\"\x7d\"\x7d\n```".data =
      some (Json.obj [("a", Json.str "\x7d")]) ∧
    parse_partial_json "\x7b\"a\":\"\x7d\"\x7d".data = none := by decide

/-- C8 amended witness: for the interior `\x7b"a":1\x7d` the hypotheses
hold and the two parses agree. -/
theorem claim_C8_amended_witness :
    containsSub "```".data "\x7b\"a\":1\x7d".data = false ∧
    pyStrip "\x7b\"a\":1\x7d".data = "\x7b\"a\":1\x7d".data ∧
    braceRegion "\x7b\"a\":1\x7d".data = some "\x7b\"a\":1\x7d".data ∧
    parse_markdown_json (fenceWrap "\x7b\"a\":1\x7d".data) =
      parse_partial_json "\x7b\"a\":1\x7d".data :=
  ⟨by decide, by decide, by decide,
   claim_C8_amended "\x7b\"a\":1\x7d".data (by decide) (by decide)
     (by decide)⟩
